import Mathlib

/-!
Verification of the jellyfin-collection core pipeline.

The definitions below are a shallow embedding of the Python sources:
`src/jfc/services/collection_builder.py` (provider aggregation and
deduplication, filter pipeline, reconciliation, acquisition dispatch),
`src/jfc/services/runner.py` (orchestrator loop and schedule gate) and
`src/jfc/clients/radarr.py` / `sonarr.py` (acquisition manager adds).
Collaborator reads (HTTP responses) are passed in as data; collaborator
writes are returned as an explicit trace.  Optional Python fields become
`Option`; Python truthiness (`if x:` on an optional int, float, string or
list) is modelled by the `truthy*` helpers, and `a or b` by the `pyOr*`
helpers.
-/

namespace JFC

/-- Python truthiness of an optional int: `None` and `0` are falsy. -/
def truthyNat : Option Nat → Bool
  | none => false
  | some n => n != 0

/-- Python truthiness of an optional float/rational: `None` and `0.0` are falsy. -/
def truthyRat : Option ℚ → Bool
  | none => false
  | some q => q != 0

/-- Python truthiness of an optional string: `None` and the empty string are falsy. -/
def truthyStr : Option String → Bool
  | none => false
  | some s => s != ""

/-- Python truthiness of an optional list: `None` and the empty list are falsy. -/
def truthyStrList : Option (List String) → Bool
  | none => false
  | some l => !l.isEmpty

/-- Python `a or default` on an optional string: the default replaces a falsy value. -/
def pyOrStr (a : Option String) (d : String) : String :=
  match a with
  | none => d
  | some s => if s = "" then d else s

/-- Python `a or default` on an optional int: the default replaces a falsy value. -/
def pyOrNat (a : Option Nat) (d : Nat) : Nat :=
  match a with
  | none => d
  | some n => if n = 0 then d else n

/-- Python `a or b` on two optional strings: `b` is returned when `a` is falsy. -/
def pyOrOpt (a b : Option String) : Option String :=
  if truthyStr a then a else b

/-- MediaItem as used by `collection_builder.py` (fields of `jfc.models.media`,
read off from their use sites; the float `vote_average` is modelled as ℚ). -/
structure MediaItem where
  title : String
  year : Option Nat
  tmdbId : Option Nat
  imdbId : Option String
  tvdbId : Option Nat
  voteAverage : Option ℚ
  voteCount : Option Nat
  genres : List String
  originalCountry : Option String
  deriving DecidableEq, Repr

/-- CollectionFilter fields, read off from their use in `_apply_filters`. -/
structure CollectionFilter where
  yearGte : Option Nat
  yearLte : Option Nat
  voteAverageGte : Option ℚ
  criticRatingGte : Option ℚ
  tmdbVoteCountGte : Option Nat
  countryNot : Option (List String)
  originCountryNot : Option (List String)
  deriving DecidableEq, Repr

/-- Schedule type enum (`jfc.models.collection.ScheduleType`). -/
inductive ScheduleType where
  | daily
  | weekly
  | monthly
  | never
  deriving DecidableEq, Repr

/-- CollectionSchedule fields, read off from `_should_run_today`. -/
structure CollectionSchedule where
  scheduleType : ScheduleType
  dayOfWeek : Option String
  dayOfMonth : Option Nat
  deriving DecidableEq, Repr

/-- CollectionConfig fields used by the embedded services. -/
structure CollectionConfig where
  name : String
  summary : Option String
  sortTitle : Option String
  itemRadarrTag : Option String
  itemSonarrTag : Option String
  limit : Option Nat
  filters : CollectionFilter
  schedule : CollectionSchedule
  deriving DecidableEq, Repr

/-- CollectionItem: the projected state of one media item for one build
(`jfc.models.collection.CollectionItem`, fields read off from `build_collection`). -/
structure CollectionItem where
  title : String
  year : Option Nat
  tmdbId : Option Nat
  imdbId : Option String
  tvdbId : Option Nat
  jellyfinId : Option String
  matched : Bool
  inLibrary : Bool
  deriving DecidableEq, Repr

/-- A built collection: definition plus the ordered items. -/
structure Collection where
  config : CollectionConfig
  libraryName : String
  items : List CollectionItem
  deriving DecidableEq, Repr

/-! ## Filter pipeline (`CollectionBuilder._apply_filters`, lines 328-371) -/

/-- `filters.b and item.f and item.f < filters.b` — the year/vote-count
lower-bound drop test (`continue` condition) with Python truthiness. -/
def dropLowNat (bound field : Option Nat) : Bool :=
  truthyNat bound && truthyNat field && decide (field.getD 0 < bound.getD 0)

/-- `filters.b and item.f and item.f > filters.b` — the upper-bound drop test. -/
def dropHighNat (bound field : Option Nat) : Bool :=
  truthyNat bound && truthyNat field && decide (bound.getD 0 < field.getD 0)

/-- Rating lower-bound drop test (`vote_average_gte` / `critic_rating_gte`). -/
def dropLowRat (bound field : Option ℚ) : Bool :=
  truthyRat bound && truthyRat field && decide (field.getD 0 < bound.getD 0)

/-- Country-exclusion drop test (`country_not` / `origin_country_not`). -/
def dropCountry (excl : Option (List String)) (c : Option String) : Bool :=
  truthyStrList excl && truthyStr c && decide (c.getD "" ∈ excl.getD [])

/-- One iteration of the `_apply_filters` loop body: `true` when the item
survives every `continue` test, in source order. -/
def keepItem (f : CollectionFilter) (i : MediaItem) : Bool :=
  if dropLowNat f.yearGte i.year then false
  else if dropHighNat f.yearLte i.year then false
  else if dropLowRat f.voteAverageGte i.voteAverage then false
  else if dropLowRat f.criticRatingGte i.voteAverage then false
  else if dropLowNat f.tmdbVoteCountGte i.voteCount then false
  else if dropCountry f.countryNot i.originalCountry then false
  else if dropCountry f.originCountryNot i.originalCountry then false
  else true

/-- `_apply_filters`: filter in order, then `filtered[:limit]` when the
configured limit is truthy. -/
def applyFilters (cfg : CollectionConfig) (items : List MediaItem) : List MediaItem :=
  let filtered := items.filter (keepItem cfg.filters)
  match cfg.limit with
  | none => filtered
  | some l => if l = 0 then filtered else filtered.take l

/-! ## Provider aggregation and deduplication
(`CollectionBuilder._fetch_items`, lines 242-251) -/

/-- `item.tmdb_id and item.tmdb_id not in seen` — whether the loop keeps the
next item, given the set of already-seen TMDb ids. -/
def dedupKeeps (seen : List Nat) (i : MediaItem) : Bool :=
  truthyNat i.tmdbId && !(seen.contains (i.tmdbId.getD 0))

/-- The deduplication loop of `_fetch_items`: one pass, threading the
`seen_ids` set, returning the kept items and the final seen set. -/
def dedupSeen (seen : List Nat) : List MediaItem → List MediaItem × List Nat
  | [] => ([], seen)
  | i :: rest =>
    if dedupKeeps seen i then
      let r := dedupSeen (i.tmdbId.getD 0 :: seen) rest
      (i :: r.1, r.2)
    else
      dedupSeen seen rest

/-- Deduplication by TMDb id as `_fetch_items` performs it on the
concatenated provider results. -/
def dedupByTmdb (items : List MediaItem) : List MediaItem :=
  (dedupSeen [] items).1

/-! ## Acquisition manager adds (`radarr.py add_movie`, `sonarr.py add_series`) -/

/-- Shape of the value an `add_movie` / `add_series` call returns. -/
inductive AddResult where
  /-- the title was already registered: the existing record is returned -/
  | existing
  /-- the add POST returned 201 and the new record is returned -/
  | added
  deriving DecidableEq, Repr

/-- Environment of one acquisition manager, abstracting its HTTP reads:
which external ids are already registered, which ids the lookup endpoint
knows, whether the configured quality profile and root folder resolve, and
the status code the add POST returns per id. -/
structure ArrManagerEnv where
  registered : List Nat
  lookupKnows : List Nat
  profileFound : Bool
  folderFound : Bool
  postCreated : Nat → Bool

/-- `add_movie` (radarr.py lines 150-227) / `add_series` (sonarr.py): returns
the record (or `none` on any reported failure) plus whether an add POST was
issued.  An already-registered id returns the existing record at once. -/
def arrAdd (env : ArrManagerEnv) (extId : Nat) : Option AddResult × Bool :=
  if env.registered.contains extId then (some .existing, false)
  else if !env.lookupKnows.contains extId then (none, false)
  else if !env.profileFound then (none, false)
  else if !env.folderFound then (none, false)
  else if env.postCreated extId then (some .added, true)
  else (none, true)

/-- One dispatched acquisition request (`_add_missing_to_arr` loop body). -/
inductive ArrReq where
  | addSeries (tvdbId : Nat) (tags : Option (List String))
  | addMovie (tmdbId : Nat) (tags : Option (List String))
  deriving DecidableEq, Repr

/-- `collection.config.item_radarr_tag or collection.config.item_sonarr_tag`
followed by `[tag] if tag else None`. -/
def tagArg (cfg : CollectionConfig) : Option (List String) :=
  let tag := pyOrOpt cfg.itemRadarrTag cfg.itemSonarrTag
  if truthyStr tag then some [tag.getD ""] else none

/-- `collection.items[0].tvdb_id is not None if collection.items else False`. -/
def isSeriesOf (items : List CollectionItem) : Bool :=
  match items.head? with
  | none => false
  | some first => first.tvdbId.isSome

/-- The requests `_add_missing_to_arr` (lines 373-395) issues: every item
whose `in_library` flag is false, routed by the collection-wide kind, is
dispatched when the matching client is configured and the item carries the
id that kind needs. -/
def addMissingRequests (sonarrConfigured radarrConfigured : Bool)
    (col : Collection) : List ArrReq :=
  let missing := col.items.filter (fun i => !i.inLibrary)
  if missing.isEmpty then []
  else
    let isSeries := isSeriesOf col.items
    missing.filterMap (fun i =>
      if isSeries && sonarrConfigured && truthyNat i.tvdbId then
        some (.addSeries (i.tvdbId.getD 0) (tagArg col.config))
      else if !isSeries && radarrConfigured && truthyNat i.tmdbId then
        some (.addMovie (i.tmdbId.getD 0) (tagArg col.config))
      else none)

/-- Both acquisition managers. -/
structure ArrEnv where
  sonarr : ArrManagerEnv
  radarr : ArrManagerEnv

/-- Route one request to its manager and record the outcome. -/
def runArrReq (env : ArrEnv) : ArrReq → Option AddResult × Bool
  | .addSeries tvdbId _ => arrAdd env.sonarr tvdbId
  | .addMovie tmdbId _ => arrAdd env.radarr tmdbId

/-! ## Reconciliation (`CollectionBuilder.sync_collection`, lines 108-173) -/

/-- A write call issued to the library collaborator. -/
inductive JFWrite where
  | createCollection (name : String)
  | addToCollection (cid : String) (ids : Finset String)
  | removeFromCollection (cid : String) (ids : Finset String)
  | updateMetadata (cid : String) (overview sortName : Option String)
  deriving DecidableEq

/-- Library collaborator reads, passed in as data: the existing collections
(name, id), the id `create_collection` would mint, and the members of each
collection. -/
structure JellyfinEnv where
  collections : List (String × String)
  newId : String
  membersOf : String → List String

/-- `{item.jellyfin_id for item in collection.items if item.jellyfin_id}` —
the target membership set (truthy matched library ids). -/
def targetIds (items : List CollectionItem) : Finset String :=
  (items.filterMap (fun i => if truthyStr i.jellyfinId then i.jellyfinId else none)).toFinset

/-- Result of one `sync_collection` call: the returned `(added, removed)`
pair, the library write trace, and each acquisition request paired with its
outcome (which the caller never consults). -/
structure SyncResult where
  counts : Nat × Nat
  jfWrites : List JFWrite
  arrCalls : List (ArrReq × (Option AddResult × Bool))
  deriving DecidableEq

/-- The collection id `sync_collection` ends up using: the first existing
collection with the exact configured name, else the id minted by
`create_collection`. -/
def resolveCid (jf : JellyfinEnv) (name : String) : String :=
  match jf.collections.find? (fun c => c.1 = name) with
  | some c => c.2
  | none => jf.newId

/-- `sync_collection`: dry-run short-circuit, collection lookup-or-create,
membership read, set diff, batched add/remove, unconditional metadata write,
then best-effort acquisition dispatch. -/
def syncCollection (dryRun : Bool) (jf : JellyfinEnv) (arr : ArrEnv)
    (sonarrConfigured radarrConfigured : Bool) (addMissingToArr : Bool)
    (col : Collection) : SyncResult :=
  if dryRun then ⟨(0, 0), [], []⟩
  else
    let existing := jf.collections.find? (fun c => c.1 = col.config.name)
    let cid := resolveCid jf col.config.name
    let createWrites : List JFWrite := match existing with
      | some _ => []
      | none => [.createCollection col.config.name]
    let currentIds : Finset String := (jf.membersOf cid).toFinset
    let target := targetIds col.items
    let toAdd := target \ currentIds
    let toRemove := currentIds \ target
    let addWrites : List JFWrite :=
      if toAdd ≠ ∅ then [.addToCollection cid toAdd] else []
    let removeWrites : List JFWrite :=
      if toRemove ≠ ∅ then [.removeFromCollection cid toRemove] else []
    let metaWrites : List JFWrite :=
      [.updateMetadata cid col.config.summary col.config.sortTitle]
    let reqs := if addMissingToArr then
        addMissingRequests sonarrConfigured radarrConfigured col
      else []
    ⟨(toAdd.card, toRemove.card),
     createWrites ++ addWrites ++ removeWrites ++ metaWrites,
     reqs.map (fun r => (r, runArrReq arr r))⟩

/-! ## Schedule gate (`Runner._should_run_today`, lines 254-272) -/

/-- Python `str.lower()`, character by character. -/
def pyLower (s : String) : String := ⟨s.data.map Char.toLower⟩

/-- Lowercased full weekday names as `strftime %A` followed by `.lower()`
produces them, indexed Monday = 0. -/
def weekdayNames : List String :=
  ["monday", "tuesday", "wednesday", "thursday", "friday", "saturday", "sunday"]

/-- Weekday name of a weekday index. -/
def weekdayName (w : Fin 7) : String :=
  weekdayNames.getD w.val ""

/-- The two date components `_should_run_today` reads from `datetime.now()`. -/
structure SimpleDate where
  weekday : Fin 7
  day : Nat
  deriving DecidableEq

/-- `_should_run_today`: daily always, never never, weekly by weekday name
(defaulting to sunday), monthly by day of month (defaulting to 1). -/
def shouldRunToday (s : CollectionSchedule) (today : SimpleDate) : Bool :=
  match s.scheduleType with
  | .daily => true
  | .never => false
  | .weekly => decide (weekdayName today.weekday = pyLower (pyOrStr s.dayOfWeek "sunday"))
  | .monthly => decide (today.day = pyOrNat s.dayOfMonth 1)

/-- The gate test at `Runner.run` lines 163-165: a collection is skipped only
when the run is scheduled and `_should_run_today` is false. -/
def gatePasses (scheduled : Bool) (s : CollectionSchedule) (today : SimpleDate) : Bool :=
  !(scheduled && !shouldRunToday s today)

/-! ## Orchestrator statistics (`Runner.run`, lines 114-207) -/

/-- The `stats` dictionary of `Runner.run`. -/
structure RunStats where
  collectionsUpdated : Nat
  itemsAdded : Nat
  itemsRemoved : Nat
  errors : Nat
  deriving DecidableEq, Repr

/-- The zero-initialised statistics at the top of `Runner.run`. -/
def initStats : RunStats := ⟨0, 0, 0, 0⟩

/-- Outcome of building plus syncing one collection: the `(added, removed)`
pair, or a raised exception (`Except.error`). -/
abbrev CollectionOutcome := Except String (Nat × Nat)

/-- The try/except body of the per-collection loop (lines 167-207): success
bumps the updated/added/removed counters, an exception bumps the error
counter; either way the loop continues. -/
def stepCollection (s : RunStats) (o : CollectionOutcome) : RunStats :=
  match o with
  | .ok (added, removed) =>
    { s with
      collectionsUpdated := s.collectionsUpdated + 1
      itemsAdded := s.itemsAdded + added
      itemsRemoved := s.itemsRemoved + removed }
  | .error _ => { s with errors := s.errors + 1 }

/-- The inner per-collection loop over one library. -/
def processCollections (s : RunStats) (outs : List CollectionOutcome) : RunStats :=
  outs.foldl stepCollection s

/-- One library in the outer loop: `none` models a library whose id lookup
failed (warn, count one error, `continue`); `some outs` a library whose
collections produced the given outcomes. -/
def stepLibrary (s : RunStats) (lib : Option (List CollectionOutcome)) : RunStats :=
  match lib with
  | none => { s with errors := s.errors + 1 }
  | some outs => processCollections s outs

/-- The outer loop of `Runner.run` over all libraries, from fresh statistics. -/
def runLoop (libs : List (Option (List CollectionOutcome))) : RunStats :=
  libs.foldl stepLibrary initStats

/-! ## Acquisition adds with their raising paths
(`radarr.py add_movie` / `sonarr.py add_series`, exceptions included) -/

/-- Environment of one acquisition manager separating the failure modes the
client reports by returning `None` (lookup miss, missing profile or root
folder, non-201 add POST — each logged) from the ones it raises:
`raise_for_status` on the exists/lookup/profile/folder/tag reads and
transport errors, listed here as the ids or flags on which the
corresponding HTTP call raises. -/
structure ArrManagerEnvE where
  registered : List Nat
  existsRaises : List Nat
  lookupKnows : List Nat
  lookupRaises : List Nat
  profileFound : Bool
  profileRaises : Bool
  folderFound : Bool
  folderRaises : Bool
  tagRaises : Bool
  postCreated : Nat → Bool
  postRaises : List Nat

/-- `add_movie` (radarr.py lines 150-227) / `add_series` with its raising
paths, in source order: the exists check (its GET can raise), the
already-registered early return, the lookup (raise or miss), the quality
profile and root folder reads (raise or reported miss), the tag reads
(raise), and the add POST (transport raise, 201 success, or non-201
reported failure). -/
def arrAddE (env : ArrManagerEnvE) (extId : Nat) :
    Except String (Option AddResult × Bool) :=
  if env.existsRaises.contains extId then .error "http"
  else if env.registered.contains extId then .ok (some .existing, false)
  else if env.lookupRaises.contains extId then .error "http"
  else if !env.lookupKnows.contains extId then .ok (none, false)
  else if env.profileRaises then .error "http"
  else if !env.profileFound then .ok (none, false)
  else if env.folderRaises then .error "http"
  else if !env.folderFound then .ok (none, false)
  else if env.tagRaises then .error "http"
  else if env.postRaises.contains extId then .error "http"
  else if env.postCreated extId then .ok (some .added, true)
  else .ok (none, true)

/-- Both acquisition managers, with raising paths. -/
structure ArrEnvE where
  sonarr : ArrManagerEnvE
  radarr : ArrManagerEnvE

/-- Route one request to its manager. -/
def runArrReqE (env : ArrEnvE) : ArrReq → Except String (Option AddResult × Bool)
  | .addSeries tvdbId _ => arrAddE env.sonarr tvdbId
  | .addMovie tmdbId _ => arrAddE env.radarr tmdbId

/-- The `_add_missing_to_arr` loop with exceptions: each request is awaited
in order and the first raised exception propagates, aborting the rest. -/
def dispatchArr (env : ArrEnvE) :
    List ArrReq → Except String (List (ArrReq × (Option AddResult × Bool)))
  | [] => .ok []
  | r :: rest =>
    match runArrReqE env r with
    | .error e => .error e
    | .ok out =>
      match dispatchArr env rest with
      | .error e => .error e
      | .ok outs => .ok ((r, out) :: outs)

/-- The add/remove count pair `sync_collection` computes from the diff
(lines 142-151 and 173). -/
def syncDiffCounts (jf : JellyfinEnv) (col : Collection) : Nat × Nat :=
  ((targetIds col.items \
      (jf.membersOf (resolveCid jf col.config.name)).toFinset).card,
   ((jf.membersOf (resolveCid jf col.config.name)).toFinset \
      targetIds col.items).card)

/-- The library writes `sync_collection` issues (lines 127-167): create if
absent, batched add and remove when nonempty, unconditional metadata. -/
def syncWrites (jf : JellyfinEnv) (col : Collection) : List JFWrite :=
  let existing := jf.collections.find? (fun c => c.1 = col.config.name)
  let cid := resolveCid jf col.config.name
  let createWrites : List JFWrite := match existing with
    | some _ => []
    | none => [.createCollection col.config.name]
  let currentIds : Finset String := (jf.membersOf cid).toFinset
  let target := targetIds col.items
  let toAdd := target \ currentIds
  let toRemove := currentIds \ target
  createWrites ++
    (if toAdd ≠ ∅ then [.addToCollection cid toAdd] else []) ++
    (if toRemove ≠ ∅ then [.removeFromCollection cid toRemove] else []) ++
    [.updateMetadata cid col.config.summary col.config.sortTitle]

/-- `sync_collection` under the raising acquisition model: the library
writes and the diff happen first; when `add_missing_to_arr` is on, an
exception raised by `_add_missing_to_arr` propagates out of
`sync_collection` (so the caller never sees the `(added, removed)` pair),
while reported outcomes are discarded and the pair is returned. -/
def syncCollectionE (dryRun : Bool) (jf : JellyfinEnv) (arr : ArrEnvE)
    (sonarrConfigured radarrConfigured addMissingToArr : Bool)
    (col : Collection) : Except String SyncResult :=
  if dryRun then .ok ⟨(0, 0), [], []⟩
  else if addMissingToArr then
    match dispatchArr arr (addMissingRequests sonarrConfigured radarrConfigured col) with
    | .error e => .error e
    | .ok calls => .ok ⟨syncDiffCounts jf col, syncWrites jf col, calls⟩
  else .ok ⟨syncDiffCounts jf col, syncWrites jf col, []⟩

deriving instance DecidableEq for Except

/-- The per-collection outcome `Runner.run` sees from the sync call inside
its try block: the returned pair on success, the exception otherwise. -/
def outcomeOfSync (r : Except String SyncResult) : CollectionOutcome :=
  match r with
  | .error e => .error e
  | .ok res => .ok res.counts

/-! ## Shared helper lemmas and scenario fixtures -/

/-- Whether a per-collection outcome is a success. -/
def isOkOutcome : CollectionOutcome → Bool
  | .ok _ => true
  | .error _ => false

/-- Items added by a successful outcome (0 for a failure). -/
def okAdded : CollectionOutcome → Nat
  | .ok p => p.1
  | .error _ => 0

/-- Items removed by a successful outcome (0 for a failure). -/
def okRemoved : CollectionOutcome → Nat
  | .ok p => p.2
  | .error _ => 0

/-- Acquisition managers that fail every call, for concrete scenarios. -/
def arrEnvTriv : ArrEnv :=
  ⟨⟨[], [], false, false, fun _ => false⟩, ⟨[], [], false, false, fun _ => false⟩⟩

/-- An empty filter specification. -/
def noFilters : CollectionFilter := ⟨none, none, none, none, none, none, none⟩

/-- A matched collection item carrying the given library id (Scenario B). -/
def matchedItem (jid : String) : CollectionItem :=
  ⟨"t", none, none, none, none, some jid, true, true⟩

/-- The collection definition of Scenario B. -/
def cfgB : CollectionConfig :=
  ⟨"Trending", none, none, none, none, none, noFilters, ⟨.daily, none, none⟩⟩

/-- Scenario B library state: the collection exists and currently holds
exactly the members a, b, c. -/
def jfEnvB : JellyfinEnv := ⟨[("Trending", "cid0")], "newcid", fun _ => ["a", "b", "c"]⟩

/-- Scenario B build result: matched library identifiers b, c, d. -/
def colB : Collection :=
  ⟨cfgB, "Movies", [matchedItem "b", matchedItem "c", matchedItem "d"]⟩

/-! ## Spec-side reading of the filter bounds (for refinement of C4) -/

/-- Spec reading of an inclusive lower bound on an optional numeric field:
whenever the bound and the field are both present (in the Python-truthiness
sense: not `None` and nonzero), the field must reach the bound. -/
def natLowOk (bound field : Option Nat) : Prop :=
  ∀ b, bound = some b → b ≠ 0 → ∀ v, field = some v → v ≠ 0 → b ≤ v

/-- Spec reading of an inclusive upper bound on an optional numeric field. -/
def natHighOk (bound field : Option Nat) : Prop :=
  ∀ b, bound = some b → b ≠ 0 → ∀ v, field = some v → v ≠ 0 → v ≤ b

/-- Spec reading of an inclusive lower bound on an optional rating field. -/
def ratLowOk (bound field : Option ℚ) : Prop :=
  ∀ b, bound = some b → b ≠ 0 → ∀ v, field = some v → v ≠ 0 → b ≤ v

/-- Spec reading of a country-exclusion set: a present country must avoid a
present, non-empty exclusion list. -/
def countryOk (excl : Option (List String)) (c : Option String) : Prop :=
  ∀ l, excl = some l → l ≠ [] → ∀ s, c = some s → s ≠ "" → s ∉ l

/-- An item satisfies every bound of the filter spec whose relevant field
is present. -/
def passesSpec (f : CollectionFilter) (i : MediaItem) : Prop :=
  natLowOk f.yearGte i.year ∧
  natHighOk f.yearLte i.year ∧
  ratLowOk f.voteAverageGte i.voteAverage ∧
  ratLowOk f.criticRatingGte i.voteAverage ∧
  natLowOk f.tmdbVoteCountGte i.voteCount ∧
  countryOk f.countryNot i.originalCountry ∧
  countryOk f.originCountryNot i.originalCountry

/-- Scenario C: an item from 2019 (with an otherwise empty record). -/
def itemY2019 : MediaItem := ⟨"old", some 2019, some 1, none, none, none, none, [], none⟩

/-- Scenario C: an item with no release year. -/
def itemYNone : MediaItem := ⟨"noyear", none, some 2, none, none, none, none, [], none⟩

/-- Scenario C collection definition: `year_gte = 2020`, no limit. -/
def cfgC : CollectionConfig :=
  ⟨"C", none, none, none, none, none,
    ⟨some 2020, none, none, none, none, none, none⟩, ⟨.daily, none, none⟩⟩

/-- Scenario C definition with a size limit of 1. -/
def cfgC1 : CollectionConfig :=
  ⟨"C", none, none, none, none, some 1,
    ⟨some 2020, none, none, none, none, none, none⟩, ⟨.daily, none, none⟩⟩

/-- A filter spec whose only bound is `vote_average_gte = 5`. -/
def filterVA5 : CollectionFilter := ⟨none, none, some 5, none, none, none, none⟩

/-- An item whose vote average is present but exactly zero. -/
def itemVA0 : MediaItem := ⟨"zero", none, some 3, none, none, some 0, none, [], none⟩

/-- Scenario A: the first provider's copy of TMDb id 603. -/
def item603a : MediaItem :=
  ⟨"The Matrix", some 1999, some 603, none, none, some 8, none, [], none⟩

/-- Scenario A: the second provider's copy of id 603, different metadata. -/
def item603b : MediaItem :=
  ⟨"The Matrix", some 1999, some 603, none, none, some 7, some 100, [], none⟩

/-- A plain collection definition for the dispatch scenarios. -/
def cfg8 : CollectionConfig :=
  ⟨"Mixed", none, none, none, none, none, noFilters, ⟨.daily, none, none⟩⟩

/-- A series item (TV-catalog identifier present) already in the library. -/
def itemSeries5 : CollectionItem :=
  ⟨"s", none, none, none, some 5, some "j1", true, true⟩

/-- A movie-only item (no TV-catalog identifier) missing from the library. -/
def itemMovie603 : CollectionItem :=
  ⟨"m", none, some 603, none, none, none, false, false⟩

/-- A heterogeneous collection whose first item has a TV-catalog id but
whose missing item is movie-only. -/
def colC8 : Collection := ⟨cfg8, "L", [itemSeries5, itemMovie603]⟩

/-- A missing series item with TV-catalog id 7. -/
def itemSeriesMissing7 : CollectionItem :=
  ⟨"s7", none, none, none, some 7, none, false, false⟩

/-- A series collection with one missing item. -/
def colD : Collection := ⟨cfg8, "L", [itemSeriesMissing7]⟩

/-- A series collection with one missing item (TV id 7) and one matched
member (library id x). -/
def colE : Collection := ⟨cfg8, "L", [itemSeriesMissing7, matchedItem "x"]⟩

/-- Library state for the acquisition-failure scenarios: the collection
exists, currently empty. -/
def jf7 : JellyfinEnv := ⟨[("Mixed", "cid7")], "new7", fun _ => []⟩

/-- A manager on which every call about id 7 succeeds and the add POST
returns 201. -/
def benignArrE : ArrManagerEnvE :=
  ⟨[], [], [7], [], true, false, true, false, false, fun _ => true, []⟩

/-- A manager whose exists check raises (HTTP error) for id 7. -/
def raisingArrE : ArrManagerEnvE :=
  ⟨[], [7], [], [], true, false, true, false, false, fun _ => true, []⟩

/-- A manager that reports failure for id 7: the lookup succeeds but the
add POST returns a non-201 status, so `add_series` logs and returns None. -/
def reportFailArrE : ArrManagerEnvE :=
  ⟨[], [], [7], [], true, false, true, false, false, fun _ => false, []⟩

/-- Managers where the series-side exists check raises for id 7. -/
def arr7 : ArrEnvE := ⟨raisingArrE, benignArrE⟩

/-- Managers where the series-side add fails with a reported (non-raised)
failure for id 7. -/
def arrFailE : ArrEnvE := ⟨reportFailArrE, benignArrE⟩

/-! ## Helper lemmas -/

lemma processCollections_spec (s : RunStats) (outs : List CollectionOutcome) :
    processCollections s outs =
      ⟨s.collectionsUpdated + outs.countP isOkOutcome,
       s.itemsAdded + (outs.map okAdded).sum,
       s.itemsRemoved + (outs.map okRemoved).sum,
       s.errors + outs.countP (fun o => !isOkOutcome o)⟩ := by
  induction outs generalizing s with
  | nil => simp [processCollections]
  | cons o rest ih =>
    cases o with
    | ok p =>
      simp [processCollections, List.foldl_cons, stepCollection] at *
      rw [ih]
      simp [List.countP_cons, isOkOutcome, okAdded, okRemoved]
      omega
    | error e =>
      simp [processCollections, List.foldl_cons, stepCollection] at *
      rw [ih]
      simp [List.countP_cons, isOkOutcome, okAdded, okRemoved]
      omega

lemma dropLowNat_eq_false (b f : Option Nat) :
    dropLowNat b f = false ↔ natLowOk b f := by
  cases b with
  | none => simp [dropLowNat, truthyNat, natLowOk]
  | some bv =>
    cases f with
    | none => simp [dropLowNat, truthyNat, natLowOk]
    | some fv =>
      simp [dropLowNat, truthyNat, natLowOk, Nat.not_lt]

lemma dropHighNat_eq_false (b f : Option Nat) :
    dropHighNat b f = false ↔ natHighOk b f := by
  cases b with
  | none => simp [dropHighNat, truthyNat, natHighOk]
  | some bv =>
    cases f with
    | none => simp [dropHighNat, truthyNat, natHighOk]
    | some fv =>
      simp [dropHighNat, truthyNat, natHighOk, Nat.not_lt]

lemma dropLowRat_eq_false (b f : Option ℚ) :
    dropLowRat b f = false ↔ ratLowOk b f := by
  cases b with
  | none => simp [dropLowRat, truthyRat, ratLowOk]
  | some bv =>
    cases f with
    | none => simp [dropLowRat, truthyRat, ratLowOk]
    | some fv =>
      simp [dropLowRat, truthyRat, ratLowOk, not_lt]

lemma dropCountry_eq_false (e : Option (List String)) (c : Option String) :
    dropCountry e c = false ↔ countryOk e c := by
  cases e with
  | none => simp [dropCountry, truthyStrList, countryOk]
  | some l =>
    cases c with
    | none => simp [dropCountry, truthyStrList, truthyStr, countryOk]
    | some s =>
      simp [dropCountry, truthyStrList, truthyStr, countryOk,
        List.isEmpty_iff]

lemma keepItem_true_iff (f : CollectionFilter) (i : MediaItem) :
    keepItem f i = true ↔ passesSpec f i := by
  unfold keepItem passesSpec
  simp only [← dropLowNat_eq_false, ← dropHighNat_eq_false,
    ← dropLowRat_eq_false, ← dropCountry_eq_false]
  cases h1 : dropLowNat f.yearGte i.year <;>
    cases h2 : dropHighNat f.yearLte i.year <;>
    cases h3 : dropLowRat f.voteAverageGte i.voteAverage <;>
    cases h4 : dropLowRat f.criticRatingGte i.voteAverage <;>
    cases h5 : dropLowNat f.tmdbVoteCountGte i.voteCount <;>
    cases h6 : dropCountry f.countryNot i.originalCountry <;>
    cases h7 : dropCountry f.originCountryNot i.originalCountry <;>
    simp

lemma dedupKeeps_iff (seen : List Nat) (i : MediaItem) :
    dedupKeeps seen i = true ↔ ∃ k, i.tmdbId = some k ∧ k ≠ 0 ∧ k ∉ seen := by
  cases h : i.tmdbId with
  | none => simp [dedupKeeps, truthyNat, h]
  | some k => simp [dedupKeeps, truthyNat, h]

lemma dedupKeeps_false (seen : List Nat) (i : MediaItem)
    (h : ¬ dedupKeeps seen i = true) (k : Nat)
    (hik : i.tmdbId = some k) (hk : k ≠ 0) : k ∈ seen := by
  rw [dedupKeeps_iff] at h
  by_contra hmem
  exact h ⟨k, hik, hk, hmem⟩

lemma dedupSeen_fst_sublist (seen : List Nat) (l : List MediaItem) :
    (dedupSeen seen l).1.Sublist l := by
  induction l generalizing seen with
  | nil => simp [dedupSeen]
  | cons i rest ih =>
    by_cases h : dedupKeeps seen i
    · simp only [dedupSeen, if_pos h]
      exact (ih _).cons₂ i
    · simp only [dedupSeen, if_neg h]
      exact (ih seen).cons i

lemma dedupSeen_mem_truthy (seen : List Nat) (l : List MediaItem) :
    ∀ x ∈ (dedupSeen seen l).1, ∃ k, x.tmdbId = some k ∧ k ≠ 0 ∧ k ∉ seen := by
  induction l generalizing seen with
  | nil => simp [dedupSeen]
  | cons i rest ih =>
    by_cases h : dedupKeeps seen i
    · simp only [dedupSeen, if_pos h]
      intro x hx
      rcases List.mem_cons.mp hx with hx | hx
      · subst hx
        exact (dedupKeeps_iff seen x).mp h
      · obtain ⟨k, hk, hk0, hks⟩ := ih _ x hx
        exact ⟨k, hk, hk0, fun hmem => hks (List.mem_cons_of_mem _ hmem)⟩
    · simp only [dedupSeen, if_neg h]
      exact ih seen

lemma dedupSeen_ids_nodup (seen : List Nat) (l : List MediaItem) :
    ((dedupSeen seen l).1.map MediaItem.tmdbId).Nodup := by
  induction l generalizing seen with
  | nil => simp [dedupSeen]
  | cons i rest ih =>
    by_cases h : dedupKeeps seen i
    · simp only [dedupSeen, if_pos h, List.map_cons, List.nodup_cons]
      refine ⟨?_, ih _⟩
      intro hmem
      obtain ⟨k0, hk0, _, _⟩ := (dedupKeeps_iff seen i).mp h
      obtain ⟨x, hx, hxid⟩ := List.mem_map.mp hmem
      obtain ⟨k, hk, _, hks⟩ := dedupSeen_mem_truthy _ _ x hx
      rw [hk, hk0] at hxid
      have hkk : k = k0 := Option.some.inj hxid
      exact hks (by simp [hk0, hkk])
    · simp only [dedupSeen, if_neg h]
      exact ih seen

lemma dedupSeen_find (seen : List Nat) (l : List MediaItem) :
    ∀ x ∈ (dedupSeen seen l).1,
      l.find? (fun y => decide (y.tmdbId = x.tmdbId)) = some x := by
  induction l generalizing seen with
  | nil => simp [dedupSeen]
  | cons i rest ih =>
    by_cases h : dedupKeeps seen i
    · simp only [dedupSeen, if_pos h]
      intro x hx
      rcases List.mem_cons.mp hx with hx | hx
      · subst hx
        simp [List.find?_cons]
      · obtain ⟨k0, hk0, _, _⟩ := (dedupKeeps_iff seen i).mp h
        obtain ⟨k, hk, hkne, hks⟩ := dedupSeen_mem_truthy _ _ x hx
        have hne : i.tmdbId ≠ x.tmdbId := by
          rw [hk0, hk]
          intro he
          have hkk : k = k0 := (Option.some.inj he).symm
          exact hks (by simp [hk0, hkk])
        rw [List.find?_cons_of_neg _ (by simpa using hne)]
        exact ih _ x hx
    · simp only [dedupSeen, if_neg h]
      intro x hx
      obtain ⟨k, hk, hkne, hks⟩ := dedupSeen_mem_truthy _ _ x hx
      have hne : i.tmdbId ≠ x.tmdbId := by
        intro he
        exact hks (dedupKeeps_false seen i h k (he.trans hk) hkne)
      rw [List.find?_cons_of_neg _ (by simpa using hne)]
      exact ih seen x hx

lemma dedupSeen_snd_mem (seen : List Nat) (l : List MediaItem) (k : Nat) :
    k ∈ (dedupSeen seen l).2 ↔
      k ∈ seen ∨ ∃ x ∈ l, x.tmdbId = some k ∧ k ≠ 0 := by
  induction l generalizing seen with
  | nil => simp [dedupSeen]
  | cons i rest ih =>
    by_cases h : dedupKeeps seen i
    · obtain ⟨k0, hk0, hk0ne, hk0s⟩ := (dedupKeeps_iff seen i).mp h
      have hgd : i.tmdbId.getD 0 = k0 := by rw [hk0]; rfl
      simp only [dedupSeen, if_pos h]
      rw [ih, hgd]
      constructor
      · rintro (hs | ⟨x, hx, hxid, hkne⟩)
        · rcases List.mem_cons.mp hs with rfl | hs
          · exact Or.inr ⟨i, List.mem_cons_self i rest, hk0, hk0ne⟩
          · exact Or.inl hs
        · exact Or.inr ⟨x, List.mem_cons_of_mem i hx, hxid, hkne⟩
      · rintro (hs | ⟨x, hx, hxid, hkne⟩)
        · exact Or.inl (List.mem_cons_of_mem _ hs)
        · rcases List.mem_cons.mp hx with rfl | hx
          · rw [hk0] at hxid
            exact Or.inl (by simp [Option.some.inj hxid])
          · exact Or.inr ⟨x, hx, hxid, hkne⟩
    · simp only [dedupSeen, if_neg h]
      rw [ih]
      constructor
      · rintro (hs | ⟨x, hx, hxid, hkne⟩)
        · exact Or.inl hs
        · exact Or.inr ⟨x, List.mem_cons_of_mem i hx, hxid, hkne⟩
      · rintro (hs | ⟨x, hx, hxid, hkne⟩)
        · exact Or.inl hs
        · rcases List.mem_cons.mp hx with rfl | hx
          · exact Or.inl (dedupKeeps_false seen x h k hxid hkne)
          · exact Or.inr ⟨x, hx, hxid, hkne⟩

lemma dedupSeen_append (seen : List Nat) (l₁ l₂ : List MediaItem) :
    dedupSeen seen (l₁ ++ l₂) =
      ((dedupSeen seen l₁).1 ++ (dedupSeen (dedupSeen seen l₁).2 l₂).1,
       (dedupSeen (dedupSeen seen l₁).2 l₂).2) := by
  induction l₁ generalizing seen with
  | nil => simp [dedupSeen]
  | cons i rest ih =>
    by_cases h : dedupKeeps seen i
    · simp only [List.cons_append, List.append_eq, dedupSeen, if_pos h, ih]
    · simp only [List.cons_append, List.append_eq, dedupSeen, if_neg h, ih]

lemma dedupSeen_all_seen (seen : List Nat) (l : List MediaItem)
    (h : ∀ x ∈ l, ∀ k, x.tmdbId = some k → k ≠ 0 → k ∈ seen) :
    dedupSeen seen l = ([], seen) := by
  induction l with
  | nil => rfl
  | cons i rest ih =>
    have hnk : ¬ dedupKeeps seen i = true := by
      rw [dedupKeeps_iff]
      rintro ⟨k, hk, hkne, hks⟩
      exact hks (h i (List.mem_cons_self i rest) k hk hkne)
    simp only [dedupSeen, if_neg hnk]
    exact ih (fun x hx => h x (List.mem_cons_of_mem i hx))

lemma dedupSeen_out_ids (l : List MediaItem) (k : Nat) (hk : k ≠ 0) :
    ∀ seen, k ∉ seen →
      ((∃ x ∈ (dedupSeen seen l).1, x.tmdbId = some k) ↔
        ∃ y ∈ l, y.tmdbId = some k) := by
  induction l with
  | nil =>
    intro seen hks
    simp [dedupSeen]
  | cons i rest ih =>
    intro seen hks
    by_cases h : dedupKeeps seen i
    · obtain ⟨k0, hk0, hk0ne, hk0s⟩ := (dedupKeeps_iff seen i).mp h
      have hgd : i.tmdbId.getD 0 = k0 := by rw [hk0]; rfl
      simp only [dedupSeen, if_pos h]
      by_cases hkk : k = k0
      · subst hkk
        constructor
        · intro _
          exact ⟨i, List.mem_cons_self i rest, hk0⟩
        · intro _
          exact ⟨i, List.mem_cons_self i _, hk0⟩
      · have hks2 : k ∉ (i.tmdbId.getD 0 :: seen) := by
          rw [hgd]
          simp only [List.mem_cons]
          rintro (rfl | hmem)
          · exact hkk rfl
          · exact hks hmem
        constructor
        · rintro ⟨x, hx, hxid⟩
          rcases List.mem_cons.mp hx with rfl | hx
          · rw [hk0] at hxid
            exact absurd (Option.some.inj hxid) (Ne.symm hkk)
          · obtain ⟨y, hy, hyid⟩ := (ih _ hks2).mp ⟨x, hx, hxid⟩
            exact ⟨y, List.mem_cons_of_mem i hy, hyid⟩
        · rintro ⟨y, hy, hyid⟩
          rcases List.mem_cons.mp hy with rfl | hy
          · rw [hk0] at hyid
            exact absurd (Option.some.inj hyid) (Ne.symm hkk)
          · obtain ⟨x, hx, hxid⟩ := (ih _ hks2).mpr ⟨y, hy, hyid⟩
            exact ⟨x, List.mem_cons_of_mem i hx, hxid⟩
    · simp only [dedupSeen, if_neg h]
      rw [ih seen hks]
      constructor
      · rintro ⟨y, hy, hyid⟩
        exact ⟨y, List.mem_cons_of_mem i hy, hyid⟩
      · rintro ⟨y, hy, hyid⟩
        rcases List.mem_cons.mp hy with rfl | hy
        · exact absurd (dedupKeeps_false seen y h k hyid hk) hks
        · exact ⟨y, hy, hyid⟩

lemma addMissingRequests_eq (sc rc : Bool) (col : Collection) :
    addMissingRequests sc rc col =
      (col.items.filter (fun i => !i.inLibrary)).filterMap (fun i =>
        if isSeriesOf col.items && sc && truthyNat i.tvdbId then
          some (.addSeries (i.tvdbId.getD 0) (tagArg col.config))
        else if !isSeriesOf col.items && rc && truthyNat i.tmdbId then
          some (.addMovie (i.tmdbId.getD 0) (tagArg col.config))
        else none) := by
  unfold addMissingRequests
  by_cases h : (col.items.filter (fun i => !i.inLibrary)).isEmpty
  · rw [if_pos h]
    rw [List.isEmpty_iff] at h
    rw [h]
    rfl
  · rw [if_neg h]

/-! ## Claim theorems -/

/-- C1: the reconciliation engine computes `to_add = target − current` and
`to_remove = current − target`; these sets are disjoint, applying them
satisfies `(current − to_remove) ∪ to_add = target`, and the returned pair
is `(|to_add|, |to_remove|)`.  Scenario B: current {a,b,c} against target
{b,c,d} yields add {d}, remove {a} and reported counts (1, 1). -/
theorem C1_reconciliation_diff (jf : JellyfinEnv) (arr : ArrEnv)
    (sc rc am : Bool) (col : Collection) :
    Disjoint
      (targetIds col.items \ (jf.membersOf (resolveCid jf col.config.name)).toFinset)
      ((jf.membersOf (resolveCid jf col.config.name)).toFinset \ targetIds col.items) ∧
    ((jf.membersOf (resolveCid jf col.config.name)).toFinset \
        ((jf.membersOf (resolveCid jf col.config.name)).toFinset \ targetIds col.items)) ∪
      (targetIds col.items \ (jf.membersOf (resolveCid jf col.config.name)).toFinset)
      = targetIds col.items ∧
    (syncCollection false jf arr sc rc am col).counts =
      ((targetIds col.items \ (jf.membersOf (resolveCid jf col.config.name)).toFinset).card,
       ((jf.membersOf (resolveCid jf col.config.name)).toFinset \ targetIds col.items).card) ∧
    targetIds colB.items \ (jfEnvB.membersOf (resolveCid jfEnvB "Trending")).toFinset
      = ({"d"} : Finset String) ∧
    (jfEnvB.membersOf (resolveCid jfEnvB "Trending")).toFinset \ targetIds colB.items
      = ({"a"} : Finset String) ∧
    (syncCollection false jfEnvB arrEnvTriv false false false colB).counts = (1, 1) := by
  refine ⟨disjoint_sdiff_sdiff, ?_, rfl, by decide, by decide, by decide⟩
  rw [Finset.sdiff_sdiff_self_left, Finset.inter_comm, Finset.union_comm,
    Finset.sdiff_union_inter]

/-- C5: with dry-run enabled, `sync_collection` returns (0, 0), issues no
library write call and no acquisition request, for every collection. -/
theorem C5_dry_run_frame (jf : JellyfinEnv) (arr : ArrEnv)
    (sc rc am : Bool) (col : Collection) :
    (syncCollection true jf arr sc rc am col).counts = (0, 0) ∧
    (syncCollection true jf arr sc rc am col).jfWrites = [] ∧
    (syncCollection true jf arr sc rc am col).arrCalls = [] :=
  ⟨rfl, rfl, rfl⟩

/-- C3: an exception in one collection increments the error counter by one
and processing continues with the remaining collections; the counters are a
sum over all outcomes regardless of position; three collections where only
the second raises yield errors = 1 and collections_updated = 2. -/
theorem C3_failure_isolation :
    (∀ (s : RunStats) (pre post : List CollectionOutcome) (e : String),
      processCollections s (pre ++ .error e :: post) =
        processCollections
          { processCollections s pre with
            errors := (processCollections s pre).errors + 1 } post) ∧
    (∀ (s : RunStats) (outs : List CollectionOutcome),
      (processCollections s outs).errors
          = s.errors + outs.countP (fun o => !isOkOutcome o) ∧
      (processCollections s outs).collectionsUpdated
          = s.collectionsUpdated + outs.countP isOkOutcome) ∧
    (∀ (p q : Nat × Nat) (e : String),
      runLoop [some [.ok p, .error e, .ok q]] = ⟨2, p.1 + q.1, p.2 + q.2, 1⟩) := by
  refine ⟨?_, ?_, ?_⟩
  · intro s pre post e
    simp [processCollections, List.foldl_append, stepCollection]
  · intro s outs
    rw [processCollections_spec]
    exact ⟨rfl, rfl⟩
  · intro p q e
    simp [runLoop, stepLibrary, processCollections_spec, initStats,
      List.countP_cons, isOkOutcome, okAdded, okRemoved, stepCollection]

/-- C7 counterexample: a collection whose membership additions, removals
and metadata sync all succeed (counts (1, 0) when acquisition dispatch is
off), but whose single acquisition request raises an HTTP error on the
exists check — the exception propagates out of `sync_collection`, the
orchestrator counts it as an error, and the collection is not counted
updated and its pair is not reported, refuting the claim that a raised
acquisition failure does not fail the collection. -/
theorem C7_counterexample_raised_failure_fails_collection :
    syncCollectionE false jf7 arr7 true true false colE
      = .ok ⟨(1, 0),
          [.addToCollection "cid7" {"x"}, .updateMetadata "cid7" none none],
          []⟩ ∧
    addMissingRequests true true colE = [.addSeries 7 none] ∧
    runArrReqE arr7 (.addSeries 7 none) = .error "http" ∧
    syncCollectionE false jf7 arr7 true true true colE = .error "http" ∧
    stepCollection initStats
        (outcomeOfSync (syncCollectionE false jf7 arr7 true true true colE))
      = ⟨0, 0, 0, 1⟩ :=
  ⟨by decide, by decide, rfl, by decide, by decide⟩

/-- C7 (amended): a failure the acquisition manager reports for a
requested missing title (a failed add returned as None, after logging)
does not fail the collection — when no request raises, the sync returns
exactly the diff counts whatever the reported outcomes were, and the
orchestrator counts the collection updated with its pair — but a raised
failure (an HTTP or transport exception during a request) propagates out
of `sync_collection` and fails that collection: it is counted as an error
and the collection is not counted updated. -/
theorem C7_acquisition_raise_vs_report (jf : JellyfinEnv) (arr : ArrEnvE)
    (sc rc : Bool) (col : Collection) (s : RunStats) :
    (∀ outs, dispatchArr arr (addMissingRequests sc rc col) = .ok outs →
      syncCollectionE false jf arr sc rc true col
          = .ok ⟨syncDiffCounts jf col, syncWrites jf col, outs⟩ ∧
      stepCollection s (outcomeOfSync (syncCollectionE false jf arr sc rc true col))
          = ⟨s.collectionsUpdated + 1,
             s.itemsAdded + (syncDiffCounts jf col).1,
             s.itemsRemoved + (syncDiffCounts jf col).2,
             s.errors⟩) ∧
    (∀ e, dispatchArr arr (addMissingRequests sc rc col) = .error e →
      syncCollectionE false jf arr sc rc true col = .error e ∧
      stepCollection s (outcomeOfSync (syncCollectionE false jf arr sc rc true col))
          = { s with errors := s.errors + 1 }) := by
  constructor
  · intro outs h
    have hE : syncCollectionE false jf arr sc rc true col
        = .ok ⟨syncDiffCounts jf col, syncWrites jf col, outs⟩ := by
      simp [syncCollectionE, h]
    refine ⟨hE, ?_⟩
    rw [hE]
    rfl
  · intro e h
    have hE : syncCollectionE false jf arr sc rc true col = .error e := by
      simp [syncCollectionE, h]
    refine ⟨hE, ?_⟩
    rw [hE]
    rfl

/-- Witness for C7 (amended): with the reported-failure managers the sync
still returns its pair; with the raising managers it fails and is counted
as an error. -/
theorem C7_acquisition_raise_vs_report_witness :
    syncCollectionE false jf7 arrFailE true true true colE
        = .ok ⟨syncDiffCounts jf7 colE, syncWrites jf7 colE,
            [(.addSeries 7 none, (none, true))]⟩ ∧
    syncCollectionE false jf7 arr7 true true true colE = .error "http" ∧
    stepCollection initStats
        (outcomeOfSync (syncCollectionE false jf7 arr7 true true true colE))
      = { initStats with errors := initStats.errors + 1 } := by
  obtain ⟨hok, _⟩ :=
    C7_acquisition_raise_vs_report jf7 arrFailE true true colE initStats
  obtain ⟨_, herr⟩ :=
    C7_acquisition_raise_vs_report jf7 arr7 true true colE initStats
  exact ⟨(hok [(.addSeries 7 none, (none, true))] (by decide)).1,
    (herr "http" (by decide)).1, (herr "http" (by decide)).2⟩

lemma pyOrNat_one_pos (o : Option Nat) : 1 ≤ pyOrNat o 1 := by
  cases o with
  | none => simp [pyOrNat]
  | some n =>
    rcases eq_or_ne n 0 with h | h
    · simp [pyOrNat, h]
    · simp [pyOrNat, h]
      omega

/-- C6: the schedule gate is always true for daily, always false for never,
true for weekly exactly when the weekday name matches the configured day
(default sunday) — hence exactly one day in seven for a valid configured
name — and true for monthly exactly when the day of month matches the
configured day (default 1) — hence once per month, or never when the month
is shorter than the configured day; manual (non-scheduled) runs bypass the
gate entirely. -/
theorem C6_schedule_gate (s : CollectionSchedule) (t : SimpleDate) :
    (s.scheduleType = .daily → shouldRunToday s t = true) ∧
    (s.scheduleType = .never → shouldRunToday s t = false) ∧
    (s.scheduleType = .weekly →
      (shouldRunToday s t = true ↔
        weekdayName t.weekday = pyLower (pyOrStr s.dayOfWeek "sunday"))) ∧
    (s.scheduleType = .weekly → s.dayOfWeek = none →
      (shouldRunToday s t = true ↔ weekdayName t.weekday = "sunday")) ∧
    (s.scheduleType = .weekly →
      pyLower (pyOrStr s.dayOfWeek "sunday") ∈ weekdayNames →
      ∀ d : Nat, ∃! w : Fin 7, shouldRunToday s ⟨w, d⟩ = true) ∧
    (s.scheduleType = .monthly →
      (shouldRunToday s t = true ↔ t.day = pyOrNat s.dayOfMonth 1)) ∧
    (s.scheduleType = .monthly → s.dayOfMonth = none →
      (shouldRunToday s t = true ↔ t.day = 1)) ∧
    (s.scheduleType = .monthly → ∀ (monthLen : Nat) (w : Fin 7),
      ((Finset.Icc 1 monthLen).filter
          (fun d => shouldRunToday s ⟨w, d⟩ = true)).card
        = if pyOrNat s.dayOfMonth 1 ≤ monthLen then 1 else 0) ∧
    gatePasses false s t = true := by
  obtain ⟨st, dow, dom⟩ := s
  refine ⟨?_, ?_, ?_, ?_, ?_, ?_, ?_, ?_, rfl⟩
  · intro h
    cases h
    rfl
  · intro h
    cases h
    rfl
  · intro h
    cases h
    simp [shouldRunToday]
  · intro h h2
    cases h
    cases h2
    simp [shouldRunToday, pyOrStr, show pyLower "sunday" = "sunday" from rfl]
  · intro h hmem d
    cases h
    simp only [weekdayNames, List.mem_cons, List.not_mem_nil, or_false] at hmem
    simp only [shouldRunToday, decide_eq_true_eq]
    rcases hmem with h | h | h | h | h | h | h <;> rw [h]
    · exact ⟨0, by decide, by decide⟩
    · exact ⟨1, by decide, by decide⟩
    · exact ⟨2, by decide, by decide⟩
    · exact ⟨3, by decide, by decide⟩
    · exact ⟨4, by decide, by decide⟩
    · exact ⟨5, by decide, by decide⟩
    · exact ⟨6, by decide, by decide⟩
  · intro h
    cases h
    simp [shouldRunToday]
  · intro h h2
    cases h
    cases h2
    simp [shouldRunToday, pyOrNat]
  · intro h monthLen w
    cases h
    have hpos : 1 ≤ pyOrNat dom 1 := pyOrNat_one_pos dom
    simp only [shouldRunToday, decide_eq_true_eq]
    rw [Finset.filter_eq']
    by_cases hle : pyOrNat dom 1 ≤ monthLen
    · simp [Finset.mem_Icc, hpos, hle]
    · simp [Finset.mem_Icc, hpos, hle]

/-- Witness for C6 at a concrete schedule and date: weekly on friday with a
friday date fires, and it is the unique firing weekday. -/
theorem C6_schedule_gate_witness :
    shouldRunToday ⟨.weekly, some "Friday", none⟩ ⟨4, 15⟩ = true ∧
    (∃! w : Fin 7, shouldRunToday ⟨.weekly, some "Friday", none⟩ ⟨w, 15⟩ = true) := by
  obtain ⟨hd, hn, hw, hwd, hex, hm, hmd, hmc, hg⟩ :=
    C6_schedule_gate ⟨.weekly, some "Friday", none⟩ ⟨4, 15⟩
  exact ⟨(hw rfl).mpr (by decide), hex rfl (by decide) 15⟩

/-- C4: the filter pipeline keeps the input order (the filtered list is a
subsequence), keeps exactly the items whose present fields satisfy every
inclusive bound (a missing field never causes a drop), and the final result
is the filtered sequence truncated to a prefix of at most `limit` items,
truncation strictly after filtering.  Scenario C: with `year_gte = 2020`, a
2019 item is dropped and a year-less item is kept. -/
theorem C4_filter_pipeline (cfg : CollectionConfig) (items : List MediaItem) :
    (items.filter (keepItem cfg.filters)).Sublist items ∧
    (∀ i, i ∈ items.filter (keepItem cfg.filters) ↔
      i ∈ items ∧ passesSpec cfg.filters i) ∧
    applyFilters cfg items <+: items.filter (keepItem cfg.filters) ∧
    (∀ l, cfg.limit = some l → l ≠ 0 →
      applyFilters cfg items = (items.filter (keepItem cfg.filters)).take l ∧
      (applyFilters cfg items).length ≤ l) ∧
    applyFilters cfgC [itemY2019, itemYNone] = [itemYNone] := by
  refine ⟨List.filter_sublist items, ?_, ?_, ?_, by decide⟩
  · intro i
    simp [List.mem_filter, keepItem_true_iff]
  · unfold applyFilters
    cases cfg.limit with
    | none => exact List.prefix_refl _
    | some l =>
      by_cases h0 : l = 0
      · simp [h0]
      · simp only [if_neg h0]
        exact List.take_prefix l _
  · intro l hl h0
    constructor
    · simp [applyFilters, hl, h0]
    · simp [applyFilters, hl, h0]

/-- Witness for C4 at Scenario C with limit 1: the theorem applied at the
concrete config and items, with the limit hypotheses discharged. -/
theorem C4_filter_pipeline_witness :
    applyFilters cfgC1 [itemY2019, itemYNone]
        = (([itemY2019, itemYNone]).filter (keepItem cfgC1.filters)).take 1 ∧
    (applyFilters cfgC1 [itemY2019, itemYNone]).length ≤ 1 :=
  (C4_filter_pipeline cfgC1 [itemY2019, itemYNone]).2.2.2.1 1 rfl (by decide)

/-- C10: the filter pipeline treats zero-valued numeric fields as absent —
an item whose vote average (or vote count, or year) is exactly zero is
never dropped by the corresponding lower (or upper) bound, even when the
bound is present and the zero value is below it. -/
theorem C10_zero_numeric_fields_absent (f : CollectionFilter) (i : MediaItem)
    (g : ℚ) (gn : Nat) :
    (i.voteAverage = some 0 →
      dropLowRat f.voteAverageGte i.voteAverage = false ∧
      dropLowRat f.criticRatingGte i.voteAverage = false) ∧
    (i.voteCount = some 0 → dropLowNat f.tmdbVoteCountGte i.voteCount = false) ∧
    (i.year = some 0 →
      dropLowNat f.yearGte i.year = false ∧
      dropHighNat f.yearLte i.year = false) ∧
    (0 < g → (0 : ℚ) < g ∧ dropLowRat (some g) (some 0) = false) ∧
    (0 < gn → 0 < gn ∧ dropLowNat (some gn) (some 0) = false) ∧
    keepItem filterVA5 itemVA0 = true := by
  refine ⟨?_, ?_, ?_, ?_, ?_, by decide⟩
  · intro h
    constructor <;> simp [dropLowRat, truthyRat, h]
  · intro h
    simp [dropLowNat, truthyNat, h]
  · intro h
    constructor <;> simp [dropLowNat, dropHighNat, truthyNat, h]
  · intro h
    exact ⟨h, by simp [dropLowRat, truthyRat]⟩
  · intro h
    exact ⟨h, by simp [dropLowNat, truthyNat]⟩

/-- Witness for C10 at a concrete filter and item: an item with vote
average exactly zero survives a vote-average bound of 5. -/
theorem C10_zero_numeric_fields_absent_witness :
    dropLowRat filterVA5.voteAverageGte itemVA0.voteAverage = false ∧
    dropLowRat filterVA5.criticRatingGte itemVA0.voteAverage = false :=
  (C10_zero_numeric_fields_absent filterVA5 itemVA0 5 2020).1 rfl

/-- C2: the aggregation pass keeps a subsequence of the concatenated
provider results in which every item carries a nonzero primary identifier,
identifiers are pairwise distinct, every kept item is the first occurrence
of its identifier in the input (later duplicates, even with different
metadata, are dropped), and an identifier appears in the output exactly
when some input item carries it.  Scenario A: two provider copies of id
603 yield exactly the first copy. -/
theorem C2_dedup_aggregation (items : List MediaItem) :
    (dedupByTmdb items).Sublist items ∧
    (∀ x ∈ dedupByTmdb items, ∃ k, x.tmdbId = some k ∧ k ≠ 0) ∧
    ((dedupByTmdb items).map MediaItem.tmdbId).Nodup ∧
    (∀ x ∈ dedupByTmdb items,
      items.find? (fun y => decide (y.tmdbId = x.tmdbId)) = some x) ∧
    (∀ k, k ≠ 0 →
      ((∃ y ∈ items, y.tmdbId = some k) ↔
        ∃ x ∈ dedupByTmdb items, x.tmdbId = some k)) ∧
    dedupByTmdb [item603a, item603b] = [item603a] := by
  refine ⟨dedupSeen_fst_sublist [] items, ?_, dedupSeen_ids_nodup [] items,
    dedupSeen_find [] items, ?_, by decide⟩
  · intro x hx
    obtain ⟨k, hk, hkne, _⟩ := dedupSeen_mem_truthy [] items x hx
    exact ⟨k, hk, hkne⟩
  · intro k hk
    exact (dedupSeen_out_ids items k hk [] (List.not_mem_nil k)).symm

/-- Witness for C2: in the two-copy Scenario A input, the kept copy of id
603 is the first occurrence. -/
theorem C2_dedup_aggregation_witness :
    [item603a, item603b].find?
      (fun y => decide (y.tmdbId = item603a.tmdbId)) = some item603a :=
  (C2_dedup_aggregation [item603a, item603b]).2.2.2.1 item603a (by decide)

/-- C9: deduplication is idempotent — aggregating the concatenation of a
provider output sequence with itself gives exactly the same result as
aggregating it once — and every kept item is always the first-encountered
occurrence of its identifier. -/
theorem C9_dedup_idempotent (items : List MediaItem) :
    dedupByTmdb (items ++ items) = dedupByTmdb items ∧
    (∀ x ∈ dedupByTmdb (items ++ items),
      (items ++ items).find? (fun y => decide (y.tmdbId = x.tmdbId)) = some x) := by
  constructor
  · have happ := dedupSeen_append [] items items
    have hall : ∀ x ∈ items, ∀ k, x.tmdbId = some k → k ≠ 0 →
        k ∈ (dedupSeen [] items).2 := by
      intro x hx k hk hkne
      exact (dedupSeen_snd_mem [] items k).mpr (Or.inr ⟨x, hx, hk, hkne⟩)
    have hempty := dedupSeen_all_seen (dedupSeen [] items).2 items hall
    unfold dedupByTmdb
    rw [happ, hempty]
    simp
  · exact dedupSeen_find [] (items ++ items)

/-- Witness for C9: the duplicated singleton input keeps the first copy. -/
theorem C9_dedup_idempotent_witness :
    ([item603a] ++ [item603a]).find?
      (fun y => decide (y.tmdbId = item603a.tmdbId)) = some item603a :=
  (C9_dedup_idempotent [item603a]).2 item603a (by decide)

/-- C8 counterexample: in a collection whose first item has a TV-catalog
identifier, a missing movie-only item (in_library = false) is never
requested from any acquisition manager, even with both managers
configured — so the dispatcher does not request every item whose
in_library flag is false. -/
theorem C8_counterexample_missing_item_not_requested :
    (∃ i ∈ colC8.items, i.inLibrary = false) ∧
    addMissingRequests true true colC8 = [] :=
  ⟨⟨itemMovie603, by decide, rfl⟩, by decide⟩

/-- C8 (amended): the dispatcher requests every CollectionItem whose
in_library flag is false and which carries the identifier required by the
collection-wide media kind — derived once from whether the first item of
the whole collection has a TV-catalog identifier — provided the matching
manager is configured; every request stems from a missing item; all
requests of one collection go to a single kind; and a title the manager
already has registered is a no-op success, not an error. -/
theorem C8_acquisition_dispatch (sc rc : Bool) (col : Collection) :
    (∀ i rest, isSeriesOf (i :: rest) = i.tvdbId.isSome) ∧
    (∀ r ∈ addMissingRequests sc rc col,
      (isSeriesOf col.items = true →
        ∃ k, r = .addSeries k (tagArg col.config)) ∧
      (isSeriesOf col.items = false →
        ∃ k, r = .addMovie k (tagArg col.config))) ∧
    (isSeriesOf col.items = true → sc = true →
      ∀ i ∈ col.items, i.inLibrary = false → ∀ k, i.tvdbId = some k → k ≠ 0 →
        ArrReq.addSeries k (tagArg col.config) ∈ addMissingRequests sc rc col) ∧
    (isSeriesOf col.items = false → rc = true →
      ∀ i ∈ col.items, i.inLibrary = false → ∀ k, i.tmdbId = some k → k ≠ 0 →
        ArrReq.addMovie k (tagArg col.config) ∈ addMissingRequests sc rc col) ∧
    (∀ k t, ArrReq.addSeries k t ∈ addMissingRequests sc rc col →
      ∃ i ∈ col.items, i.inLibrary = false ∧ i.tvdbId = some k) ∧
    (∀ k t, ArrReq.addMovie k t ∈ addMissingRequests sc rc col →
      ∃ i ∈ col.items, i.inLibrary = false ∧ i.tmdbId = some k) ∧
    (∀ (env : ArrManagerEnv) (extId : Nat),
      env.registered.contains extId = true →
      arrAdd env extId = (some .existing, false)) := by
  refine ⟨fun i rest => rfl, ?_, ?_, ?_, ?_, ?_, ?_⟩
  · intro r hr
    rw [addMissingRequests_eq] at hr
    obtain ⟨i, hi, hf⟩ := List.mem_filterMap.mp hr
    constructor
    · intro hs
      simp only [hs, Bool.true_and, Bool.not_true, Bool.false_and] at hf
      split at hf
      · exact ⟨i.tvdbId.getD 0, (Option.some.inj hf).symm⟩
      · simp at hf
    · intro hs
      simp only [hs, Bool.false_and, Bool.not_false, Bool.true_and] at hf
      split at hf
      case isTrue h => exact absurd h (by simp)
      case isFalse =>
        split at hf
        · exact ⟨i.tmdbId.getD 0, (Option.some.inj hf).symm⟩
        · simp at hf
  · intro hs hsc i hi hlib k hk hkne
    rw [addMissingRequests_eq]
    apply List.mem_filterMap.mpr
    refine ⟨i, List.mem_filter.mpr ⟨hi, by simp [hlib]⟩, ?_⟩
    simp [hs, hsc, truthyNat, hk, hkne]
  · intro hs hrc i hi hlib k hk hkne
    rw [addMissingRequests_eq]
    apply List.mem_filterMap.mpr
    refine ⟨i, List.mem_filter.mpr ⟨hi, by simp [hlib]⟩, ?_⟩
    simp [hs, hrc, truthyNat, hk, hkne]
  · intro k t hmem
    rw [addMissingRequests_eq] at hmem
    obtain ⟨i, hi, hf⟩ := List.mem_filterMap.mp hmem
    have hi1 := (List.mem_filter.mp hi).1
    have hi2 : i.inLibrary = false := by
      have h2 := (List.mem_filter.mp hi).2
      simpa using h2
    refine ⟨i, hi1, hi2, ?_⟩
    split at hf
    case isTrue h1 =>
      have htr : truthyNat i.tvdbId = true := by
        simp only [Bool.and_eq_true] at h1
        exact h1.2
      simp only [Option.some.injEq, ArrReq.addSeries.injEq] at hf
      cases hid : i.tvdbId with
      | none => rw [hid] at htr; simp [truthyNat] at htr
      | some k2 =>
        rw [hid] at hf
        simp at hf
        rw [hf.1]
    case isFalse h1 =>
      split at hf
      · simp at hf
      · simp at hf
  · intro k t hmem
    rw [addMissingRequests_eq] at hmem
    obtain ⟨i, hi, hf⟩ := List.mem_filterMap.mp hmem
    have hi1 := (List.mem_filter.mp hi).1
    have hi2 : i.inLibrary = false := by
      have h2 := (List.mem_filter.mp hi).2
      simpa using h2
    refine ⟨i, hi1, hi2, ?_⟩
    split at hf
    · simp at hf
    · split at hf
      case isTrue h2 =>
        have htr : truthyNat i.tmdbId = true := by
          simp only [Bool.and_eq_true] at h2
          exact h2.2
        simp only [Option.some.injEq, ArrReq.addMovie.injEq] at hf
        cases hid : i.tmdbId with
        | none => rw [hid] at htr; simp [truthyNat] at htr
        | some k2 =>
          rw [hid] at hf
          simp at hf
          rw [hf.1]
      case isFalse h2 => simp at hf
  · intro env extId hreg
    have hmem : extId ∈ env.registered := by simpa using hreg
    simp [arrAdd, hmem]

/-- Witness for C8 (amended) at a concrete series collection: the missing
series item with TV id 7 is requested. -/
theorem C8_acquisition_dispatch_witness :
    ArrReq.addSeries 7 (tagArg cfg8) ∈ addMissingRequests true true colD :=
  (C8_acquisition_dispatch true true colD).2.2.1 rfl rfl itemSeriesMissing7
    (by decide) rfl 7 rfl (by decide)

end JFC
